import Mathlib

/-!
Verification development for the Ubiquus monthly sales processor
(`scripts/process_sales/src/`).  The Python sources are shallowly embedded:

* Strings are Lean `String`s; Python's code-point lexicographic comparison
  is embedded as the structural function `lexLt` on `List Char`; Python's
  substring test (`nd in hay`) is `strContains`; Python's slice `s[:n]` is
  `pyTake n s`.
* Wall-clock time is abstracted to a day count `now : Nat`;
  `datetime.now() + timedelta(days = d)` becomes `now + d`.
* The network is a parameter: file listings arrive as a `List DriveFile`,
  downloaded CSV bodies as a function from filename to parsed rows, the
  billing API's reply to each POST as a function `Payload → SendOutcome`,
  and the product-listing reply of the MTB variant as an `ApiListing`.
* pandas operations are embedded by their effect on the row lists:
  `df[df[q] > 0]` is a `filter`, `df[c].unique()` is `dedupFirst`
  (first-seen order), and `groupby(c, as_index=False).sum()` is `groupSum`
  (keys sorted, quantities summed).

Each Python module becomes a namespace (`ProcessSales`,
`ProcessSevenSales`, `ProcessMtbSales`) whose definitions keep the
source's function names.
-/

/-- Python's `<` on one character, compared by code point, lifted to lists:
lexicographic comparison exactly as Python compares strings. -/
def lexLt : List Char → List Char → Bool
  | [], [] => false
  | [], _ :: _ => true
  | _ :: _, [] => false
  | a :: as, b :: bs => if a < b then true else if b < a then false else lexLt as bs

/-- Python's `a < b` on strings. -/
def pyStrLt (a b : String) : Bool := lexLt a.data b.data

/-- Python's `a <= b` on strings (total order, so `a <= b` iff `not (b < a)`). -/
def pyStrLe (a b : String) : Bool := !(pyStrLt b a)

/-- Whether the first list is an initial segment of the second. -/
def leadMatch : List Char → List Char → Bool
  | [], _ => true
  | _ :: _, [] => false
  | a :: as, b :: bs => a == b && leadMatch as bs

/-- Whether `needle` occurs contiguously somewhere in the second list. -/
def subMatch (needle : List Char) : List Char → Bool
  | [] => needle.isEmpty
  | c :: rest => leadMatch needle (c :: rest) || subMatch needle rest

/-- Python's `needle in haystack` on strings. -/
def strContains (haystack needle : String) : Bool := subMatch needle.data haystack.data

/-- Python's slice `s[:n]`: the first `n` characters, or all of `s` when it
is shorter. -/
def pyTake (n : Nat) (s : String) : String := String.mk (s.data.take n)

/-- Python's slice `s[11:-4]` used by `process_csv_files` to cut the client
key out of a filename; empty when the name is too short. -/
def pyNifSlice (s : String) : String :=
  String.mk ((s.data.drop 11).take (s.data.length - 4 - 11))

/-- One entry of the Google Drive listing (`files(id, name)`). -/
structure DriveFile where
  id : String
  name : String
  deriving DecidableEq

/-- One data row of a downloaded CSV after column selection and renaming:
the `CÓDIGO` and `REP.` columns. -/
structure CsvRow where
  codigo : String
  rep : Int
  deriving DecidableEq

/-- One row of the consolidated DataFrame of the general processor:
product code and replenishment quantity tagged with the owning client key. -/
structure SalesRecord where
  nif : String
  codigo : String
  qty : Int
  deriving DecidableEq

/-- One line item of an invoice payload: `{"reference": ..., "qty": ...}`. -/
structure Item where
  reference : String
  qty : Int
  deriving DecidableEq

/-- Reply of the billing API to one POST: an HTTP status code, or a raised
network exception. -/
inductive SendOutcome where
  | status (code : Nat)
  | netError
  deriving DecidableEq

/-- A document-creation payload.  Optional fields model JSON keys that a
variant may leave out of the dictionary it builds. -/
structure Payload where
  fiscal_id : Option String
  register_id : Option String
  type : String
  date_due : Option Nat
  mode : String
  external_reference : Option String
  items : List Item
  payments : Option (List String)
  deriving DecidableEq

/-- Observable outcome of one `run`: the returned boolean, the payloads the
run built, and the payloads it actually submitted. -/
structure RunResult where
  success : Bool
  built : List Payload
  sent : List Payload
  deriving DecidableEq

/-- Helper for `dedupFirst`: drop every element already in `seen`, keep the
first occurrence of each new one. -/
def dedupFirstAux (seen : List String) : List String → List String
  | [] => []
  | x :: xs => if x ∈ seen then dedupFirstAux seen xs else x :: dedupFirstAux (x :: seen) xs

/-- pandas `Series.unique()`: the distinct values in first-seen order. -/
def dedupFirst (l : List String) : List String := dedupFirstAux [] l

/-- Sum of the quantity column of a list of `(code, qty)` rows. -/
def sumQty (rows : List (String × Int)) : Int := rows.foldl (fun acc row => acc + row.2) 0

/-- pandas `df.groupby(code, as_index=False).sum()` on `(code, qty)` rows:
one output row per distinct code, codes sorted ascending, quantities
summed. -/
def groupSum (rows : List (String × Int)) : List (String × Int) :=
  (List.insertionSort (fun a b => pyStrLe a b = true) (dedupFirst (rows.map Prod.fst))).map
    (fun codigo => (codigo, sumQty (rows.filter (fun row => decide (row.1 = codigo)))))

namespace ProcessSales

/-- Configuration record of `process_sales.get_config`; a missing
environment variable is the empty string. -/
structure Config where
  serviceAccountKeyPath : String
  vendusApiKey : String
  excludedNifs : List String
  mode : String
  deriving DecidableEq

/-- Embeds `process_sales.filter_files_exclude_nifs`: keep the files whose
name contains no excluded NIF and whose first ten characters lie in the
closed date range. -/
def filter_files_exclude_nifs (files : List DriveFile) (excluded_nifs : List String)
    (start_date end_date : String) : List DriveFile :=
  files.foldl
    (fun filtered_files file =>
      if !(excluded_nifs.any (fun nif => strContains file.name nif)) then
        let created_time := pyTake 10 file.name
        if pyStrLe start_date created_time && pyStrLe created_time end_date then
          filtered_files ++ [file]
        else filtered_files
      else filtered_files)
    []

/-- Embeds `process_sales.process_csv_files`: parse every downloaded file,
tag each row with the client key sliced out of the filename, concatenate,
and keep the rows with positive replenishment quantity. -/
def process_csv_files (filenames : List String) (rows : String → List CsvRow) :
    List SalesRecord :=
  (filenames.flatMap (fun filename =>
    (rows filename).map (fun row => ⟨pyNifSlice filename, row.codigo, row.rep⟩))).filter
    (fun r => decide (0 < r.qty))

/-- Embeds `process_sales.create_sales_items`: for each distinct client key
(first-seen order), group that client's rows by product code (summing
quantities) and convert them to line items. -/
def create_sales_items (df : List SalesRecord) : List (String × List Item) :=
  (dedupFirst (df.map SalesRecord.nif)).map (fun nif =>
    let client_df := groupSum ((df.filter (fun r => decide (r.nif = nif))).map
      (fun r => (r.codigo, r.qty)))
    (nif, client_df.map (fun row => ⟨row.1, row.2⟩)))

/-- Embeds `process_sales.get_due_date`: `days_from_now` days after the
current date (the call sites pass the default, 15). -/
def get_due_date (now : Nat) (days_from_now : Nat) : Nat := now + days_from_now

/-- Embeds `process_sales.create_invoices_payloads`: one payload per
client, carrying the document type, the due date and the client's items. -/
def create_invoices_payloads (sales : List (String × List Item)) (document_type : String)
    (mode : String) (now : Nat) : List Payload :=
  sales.map (fun client_sales =>
    ⟨some client_sales.1, none, document_type, some (get_due_date now 15), mode, none,
      client_sales.2, none⟩)

/-- Embeds `process_sales.send_invoices`: POST the payloads in order; stop
and return `False` at the first reply that is neither 200 nor 201 or at a
raised exception.  The second component records which payloads were
actually submitted. -/
def send_invoices : List Payload → (Payload → SendOutcome) → Bool × List Payload
  | [], _ => (true, [])
  | payload :: rest, net =>
    match net payload with
    | SendOutcome.netError => (false, [payload])
    | SendOutcome.status code =>
      if code = 200 ∨ code = 201 then
        let r := send_invoices rest net
        (r.1, payload :: r.2)
      else (false, [payload])

/-- Embeds `process_sales.run` (the part after credential loading): check
the configuration, filter the listing, parse and aggregate, build the
payloads, dispatch them. -/
def run (config : Config) (files : List DriveFile) (rows : String → List CsvRow)
    (net : Payload → SendOutcome) (start_date end_date : String) (dry_run : Bool)
    (now : Nat) : RunResult :=
  if config.serviceAccountKeyPath = "" then ⟨false, [], []⟩
  else if config.vendusApiKey = "" then ⟨false, [], []⟩
  else
    let document_type := if dry_run then "PF" else "FT"
    let filtered_files := filter_files_exclude_nifs files config.excludedNifs start_date end_date
    if filtered_files = [] then ⟨true, [], []⟩
    else
      let df := process_csv_files (filtered_files.map DriveFile.name) rows
      let sales_items := create_sales_items df
      if sales_items = [] then ⟨true, [], []⟩
      else
        let payloads := create_invoices_payloads sales_items document_type config.mode now
        let result := send_invoices payloads net
        ⟨result.1, payloads, result.2⟩

/-- The Aggregator stage of the general variant as one function: the
positive-quantity filter applied by `process_csv_files` followed by the
grouping of `create_sales_items`. -/
def aggregate (records : List SalesRecord) : List (String × List Item) :=
  create_sales_items (records.filter (fun r => decide (0 < r.qty)))

end ProcessSales

namespace ProcessSevenSales

/-- Configuration record of `process_seven_sales.get_config`. -/
structure Config where
  serviceAccountKeyPath : String
  vendusApiKey : String
  registerId : String
  paymentId : String
  nif : String
  mode : String
  deriving DecidableEq

/-- Embeds `process_seven_sales.filter_files`: keep the files whose name
contains the configured NIF and whose first ten characters lie in the
closed date range. -/
def filter_files (files : List DriveFile) (nif : String) (start_date end_date : String) :
    List DriveFile :=
  files.foldl
    (fun filtered_files file =>
      if strContains file.name nif then
        let created_time := pyTake 10 file.name
        if pyStrLe start_date created_time && pyStrLe created_time end_date then
          filtered_files ++ [file]
        else filtered_files
      else filtered_files)
    []

/-- Embeds `process_seven_sales.process_csv_files`: concatenate the parsed
rows, keep the positive quantities, and group by product code. -/
def process_csv_files (filenames : List String) (rows : String → List CsvRow) :
    List (String × Int) :=
  groupSum (((filenames.flatMap rows).map (fun row => (row.codigo, row.rep))).filter
    (fun p => decide (0 < p.2)))

/-- Embeds `process_seven_sales.create_sales_items`: convert the grouped
rows to line items. -/
def create_sales_items (df : List (String × Int)) : List Item :=
  df.map (fun row => ⟨row.1, row.2⟩)

/-- Embeds `process_seven_sales.create_invoice_payload`: a register-id
payload without a due date; the payments list is attached only when a
payment id is present and non-empty (Python truthiness). -/
def create_invoice_payload (sales : List Item) (document_type : String) (register_id : String)
    (mode : String) (payment_id : Option String) : Payload :=
  let payload : Payload :=
    ⟨none, some register_id, document_type, none, mode, some "Seven Gym", sales, none⟩
  match payment_id with
  | some pid => if pid == "" then payload else { payload with payments := some [pid] }
  | none => payload

/-- Embeds `process_seven_sales.send_invoice`: one POST, successful iff the
status is 200 or 201; a raised exception counts as failure. -/
def send_invoice (payload : Payload) (net : Payload → SendOutcome) : Bool :=
  match net payload with
  | SendOutcome.status code => decide (code = 200 ∨ code = 201)
  | SendOutcome.netError => false

/-- Embeds `process_seven_sales.run` (after credential loading). -/
def run (config : Config) (files : List DriveFile) (rows : String → List CsvRow)
    (net : Payload → SendOutcome) (start_date end_date : String) (dry_run : Bool) : RunResult :=
  if config.serviceAccountKeyPath = "" then ⟨false, [], []⟩
  else if config.vendusApiKey = "" then ⟨false, [], []⟩
  else
    let document_type := if dry_run then "PF" else "FR"
    let payment_id : Option String := if dry_run then none else some config.paymentId
    let filtered_files := filter_files files config.nif start_date end_date
    if filtered_files = [] then ⟨true, [], []⟩
    else
      let df := process_csv_files (filtered_files.map DriveFile.name) rows
      let sales_items := create_sales_items df
      if sales_items = [] then ⟨true, [], []⟩
      else
        let payload :=
          create_invoice_payload sales_items document_type config.registerId config.mode payment_id
        let success := send_invoice payload net
        ⟨success, [payload], [payload]⟩

end ProcessSevenSales

namespace ProcessMtbSales

/-- Configuration record of `process_mtb_sales.get_config`. -/
structure Config where
  mtbNif : String
  mtbStoreId : String
  mtbVendusApiKey : String
  vendusApiKey : String
  mode : String
  deriving DecidableEq

/-- One product returned by the billing API's product listing, with its
numeric stock. -/
structure Product where
  reference : String
  stock : Int
  deriving DecidableEq

/-- Reply of the product-listing GET: an HTTP status with a body, or a
raised network exception. -/
inductive ApiListing where
  | response (code : Nat) (body : List Product)
  | netError
  deriving DecidableEq

/-- Embeds `process_mtb_sales.get_products_with_negative_qty`: on a 200
reply, the products with negative stock as `(reference, qty)` entries; on
any other status or on an exception, the empty list. -/
def get_products_with_negative_qty (listing : ApiListing) : List Item :=
  match listing with
  | ApiListing.response code products =>
    if code = 200 then
      products.foldl
        (fun negative_qty_products product =>
          if product.stock < 0 then negative_qty_products ++ [⟨product.reference, product.stock⟩]
          else negative_qty_products)
        []
    else []
  | ApiListing.netError => []

/-- Embeds `process_mtb_sales.create_sales_items_from_products`: flip the
negative quantities to their absolute value. -/
def create_sales_items_from_products (products : List Item) : List Item :=
  products.map (fun product => ⟨product.reference, abs product.qty⟩)

/-- Embeds `process_mtb_sales.get_due_date`. -/
def get_due_date (now : Nat) (days_from_now : Nat) : Nat := now + days_from_now

/-- Embeds `process_mtb_sales.create_ft_document_payload`. -/
def create_ft_document_payload (sales_items : List Item) (due_date : Nat)
    (document_type : String) (nif : String) (mode : String) : Payload :=
  ⟨some nif, none, document_type, some due_date, mode, none, sales_items, none⟩

/-- Embeds `process_mtb_sales.send_document`: one POST, successful iff the
status is 200 or 201. -/
def send_document (payload : Payload) (net : Payload → SendOutcome) : Bool :=
  match net payload with
  | SendOutcome.status code => decide (code = 200 ∨ code = 201)
  | SendOutcome.netError => false

/-- Embeds `process_mtb_sales.run` (after credential loading). -/
def run (config : Config) (listing : ApiListing) (net : Payload → SendOutcome)
    (dry_run : Bool) (now : Nat) (due_days : Nat) : RunResult :=
  if config.mtbVendusApiKey = "" then ⟨false, [], []⟩
  else if config.vendusApiKey = "" then ⟨false, [], []⟩
  else
    let due_date := get_due_date now due_days
    let negative_qty_products := get_products_with_negative_qty listing
    if negative_qty_products = [] then ⟨true, [], []⟩
    else
      let sales_items := create_sales_items_from_products negative_qty_products
      let payload :=
        if dry_run then create_ft_document_payload sales_items due_date "PF" config.mtbNif config.mode
        else create_ft_document_payload sales_items due_date "FT" config.mtbNif config.mode
      let success := send_document payload net
      ⟨success, [payload], [payload]⟩

end ProcessMtbSales

/-- Spec-side selection rule of the exclusion-mode selector, written from
the specification's words: the name contains none of the excluded NIFs and
its first ten characters lie between the start and end dates inclusive. -/
def specExclusionSelect (excluded_nifs : List String) (start_date end_date : String)
    (file : DriveFile) : Bool :=
  excluded_nifs.all (fun nif => !(strContains file.name nif)) &&
    (pyStrLe start_date (pyTake 10 file.name) && pyStrLe (pyTake 10 file.name) end_date)

/-- Whether an HTTP outcome counts as a successful submission (status 200
or 201; an exception never does). -/
def outcomeOk : SendOutcome → Bool
  | SendOutcome.status code => decide (code = 200 ∨ code = 201)
  | SendOutcome.netError => false

/-- Reinterpretation of an aggregated result as plain sales records, used
to feed an aggregation output back into the aggregation. -/
def flattenAgg (sales_items : List (String × List Item)) : List SalesRecord :=
  sales_items.flatMap (fun client =>
    client.2.map (fun item => ⟨client.1, item.reference, item.qty⟩))

/-- Concrete configuration exercising the general variant. -/
def sampleSalesConfig : ProcessSales.Config := ⟨"svc-key", "api-key", ["5417196215"], "normal"⟩

/-- Concrete configuration exercising the gym variant (the defaults of its
`get_config`). -/
def sampleSevenConfig : ProcessSevenSales.Config :=
  ⟨"svc-key", "api-key", "217465187", "85469894", "5480033140", "normal"⟩

/-- Concrete configuration exercising the MTB variant (the defaults of its
`get_config`). -/
def sampleMtbConfig : ProcessMtbSales.Config :=
  ⟨"5417196215", "217464989", "mtb-key", "api-key", "normal"⟩

/-- One concrete listing entry whose name carries the gym NIF. -/
def sampleFile : DriveFile := ⟨"f1", "2024-03-05_data_5480033140.csv"⟩

/-- Concrete CSV contents: every file parses to one row, product X,
quantity 3. -/
def sampleRows : String → List CsvRow := fun _ => [⟨"X", 3⟩]

/-- A network that answers every POST with HTTP 200. -/
def okNet : Payload → SendOutcome := fun _ => SendOutcome.status 200

theorem lexLt_asymm : ∀ {a b : List Char}, lexLt a b = true → lexLt b a = false := by
  intro a
  induction a with
  | nil =>
    intro b h
    cases b with
    | nil => simp [lexLt] at h
    | cons y ys => simp [lexLt]
  | cons x xs ih =>
    intro b h
    cases b with
    | nil => simp [lexLt] at h
    | cons y ys =>
      simp only [lexLt] at h ⊢
      by_cases hxy : x < y
      · simp [lt_asymm hxy, hxy]
      · by_cases hyx : y < x
        · simp [hxy, hyx] at h
        · simp only [hxy, hyx, if_false] at h
          simp [hxy, hyx, ih h]

theorem lexLt_trans : ∀ {a b c : List Char},
    lexLt a b = true → lexLt b c = true → lexLt a c = true := by
  intro a
  induction a with
  | nil =>
    intro b c _ h2
    cases c with
    | nil =>
      cases b with
      | nil => simp [lexLt] at h2
      | cons y ys => simp [lexLt] at h2
    | cons z zs => simp [lexLt]
  | cons x xs ih =>
    intro b c h1 h2
    cases b with
    | nil => simp [lexLt] at h1
    | cons y ys =>
      cases c with
      | nil => simp [lexLt] at h2
      | cons z zs =>
        simp only [lexLt] at h1 h2 ⊢
        by_cases hxy : x < y
        · by_cases hyz : y < z
          · simp [lt_trans hxy hyz]
          · by_cases hzy : z < y
            · simp [hyz, hzy] at h2
            · have e : y = z := le_antisymm (le_of_not_lt hzy) (le_of_not_lt hyz)
              subst e
              simp [hxy]
        · by_cases hyx : y < x
          · simp [hxy, hyx] at h1
          · have e : x = y := le_antisymm (le_of_not_lt hyx) (le_of_not_lt hxy)
            subst e
            by_cases hyz : x < z
            · simp [hyz]
            · by_cases hzy : z < x
              · simp [hyz, hzy] at h2
              · simp only [hxy, hyx, if_false] at h1
                simp only [hyz, hzy, if_false] at h2
                simp [hyz, hzy, ih h1 h2]

theorem lexLt_connex : ∀ {a b : List Char},
    lexLt a b = false → lexLt b a = false → a = b := by
  intro a
  induction a with
  | nil =>
    intro b h1 _
    cases b with
    | nil => rfl
    | cons y ys => simp [lexLt] at h1
  | cons x xs ih =>
    intro b h1 h2
    cases b with
    | nil => simp [lexLt] at h2
    | cons y ys =>
      simp only [lexLt] at h1 h2
      by_cases hxy : x < y
      · simp [hxy] at h1
      · by_cases hyx : y < x
        · simp [hyx, hxy] at h2
        · have e : x = y := le_antisymm (le_of_not_lt hyx) (le_of_not_lt hxy)
          subst e
          simp only [lt_irrefl, if_false] at h1 h2
          rw [ih h1 h2]

theorem pyStrLe_total (a b : String) : pyStrLe a b = true ∨ pyStrLe b a = true := by
  unfold pyStrLe pyStrLt
  by_cases h : lexLt a.data b.data = true
  · exact Or.inl (by rw [lexLt_asymm h]; rfl)
  · exact Or.inr (by rw [Bool.eq_false_iff.mpr h]; rfl)

theorem pyStrLe_trans {a b c : String} (h1 : pyStrLe a b = true) (h2 : pyStrLe b c = true) :
    pyStrLe a c = true := by
  unfold pyStrLe pyStrLt at h1 h2 ⊢
  rw [Bool.not_eq_true'] at h1 h2
  rw [Bool.not_eq_true']
  by_cases hca : lexLt c.data a.data = true
  · by_cases hbc : lexLt b.data c.data = true
    · exact absurd (lexLt_trans hbc hca) (by rw [h1]; simp)
    · have e : b.data = c.data := lexLt_connex (Bool.eq_false_iff.mpr hbc) h2
      rw [← e] at hca
      rw [hca] at h1
      exact absurd h1 (by simp)
  · exact Bool.eq_false_iff.mpr hca

instance : IsTotal String (fun a b => pyStrLe a b = true) := ⟨pyStrLe_total⟩

instance : IsTrans String (fun a b => pyStrLe a b = true) := ⟨fun _ _ _ => pyStrLe_trans⟩

theorem mem_dedupFirstAux {a : String} :
    ∀ (l seen : List String), a ∈ dedupFirstAux seen l ↔ a ∈ l ∧ a ∉ seen := by
  intro l
  induction l with
  | nil => intro seen; simp [dedupFirstAux]
  | cons x xs ih =>
    intro seen
    simp only [dedupFirstAux]
    by_cases hx : x ∈ seen
    · rw [if_pos hx, ih seen]
      simp only [List.mem_cons]
      constructor
      · rintro ⟨h1, h2⟩
        exact ⟨Or.inr h1, h2⟩
      · rintro ⟨h1 | h1, h2⟩
        · exact absurd (h1 ▸ hx) h2
        · exact ⟨h1, h2⟩
    · rw [if_neg hx]
      simp only [List.mem_cons, ih (x :: seen), List.mem_cons]
      constructor
      · rintro (rfl | ⟨h1, h2⟩)
        · exact ⟨Or.inl rfl, hx⟩
        · exact ⟨Or.inr h1, fun hs => h2 (Or.inr hs)⟩
      · rintro ⟨rfl | h1, h2⟩
        · exact Or.inl rfl
        · by_cases hax : a = x
          · exact Or.inl hax
          · exact Or.inr ⟨h1, fun h => h.elim hax h2⟩

theorem mem_dedupFirst {a : String} {l : List String} : a ∈ dedupFirst l ↔ a ∈ l := by
  unfold dedupFirst
  rw [mem_dedupFirstAux]
  simp

theorem nodup_dedupFirstAux : ∀ (l seen : List String), (dedupFirstAux seen l).Nodup := by
  intro l
  induction l with
  | nil => intro seen; simp [dedupFirstAux]
  | cons x xs ih =>
    intro seen
    simp only [dedupFirstAux]
    by_cases hx : x ∈ seen
    · rw [if_pos hx]; exact ih seen
    · rw [if_neg hx]
      refine List.nodup_cons.mpr ⟨?_, ih (x :: seen)⟩
      intro hmem
      exact ((mem_dedupFirstAux xs (x :: seen)).mp hmem).2 (List.mem_cons_self x seen)

theorem nodup_dedupFirst (l : List String) : (dedupFirst l).Nodup :=
  nodup_dedupFirstAux l []

theorem dedupFirstAux_eq_self :
    ∀ (l seen : List String), l.Nodup → (∀ a ∈ l, a ∉ seen) → dedupFirstAux seen l = l := by
  intro l
  induction l with
  | nil => intro seen _ _; rfl
  | cons x xs ih =>
    intro seen hnd hseen
    simp only [dedupFirstAux]
    rw [if_neg (hseen x (List.mem_cons_self x xs))]
    congr 1
    refine ih (x :: seen) (List.nodup_cons.mp hnd).2 ?_
    intro a ha
    simp only [List.mem_cons]
    rintro (rfl | h)
    · exact (List.nodup_cons.mp hnd).1 ha
    · exact hseen a (List.mem_cons_of_mem x ha) h

theorem dedupFirst_eq_self {l : List String} (h : l.Nodup) : dedupFirst l = l :=
  dedupFirstAux_eq_self l [] h (by simp)

theorem dedupFirstAux_append_seen :
    ∀ (l1 l2 seen : List String), (∀ x ∈ l1, x ∈ seen) →
      dedupFirstAux seen (l1 ++ l2) = dedupFirstAux seen l2 := by
  intro l1
  induction l1 with
  | nil => intro l2 seen _; rfl
  | cons x xs ih =>
    intro l2 seen h
    simp only [List.cons_append, dedupFirstAux]
    rw [if_pos (h x (List.mem_cons_self x xs))]
    exact ih l2 seen (fun y hy => h y (List.mem_cons_of_mem x hy))

theorem foldl_add_init (rows : List (String × Int)) :
    ∀ a : Int, rows.foldl (fun acc row => acc + row.2) a = a + (rows.map Prod.snd).sum := by
  induction rows with
  | nil => intro a; simp
  | cons r rs ih =>
    intro a
    simp only [List.foldl_cons, List.map_cons, List.sum_cons]
    rw [ih (a + r.2), add_assoc]

theorem sumQty_eq (rows : List (String × Int)) : sumQty rows = (rows.map Prod.snd).sum := by
  unfold sumQty
  rw [foldl_add_init rows 0, zero_add]

theorem sumQty_pos {rows : List (String × Int)} (hne : rows ≠ [])
    (hpos : ∀ r ∈ rows, 0 < r.2) : 0 < sumQty rows := by
  rw [sumQty_eq]
  apply List.sum_pos
  · intro x hx
    obtain ⟨r, hr, rfl⟩ := List.mem_map.mp hx
    exact hpos r hr
  · simpa using hne

theorem filter_map_keyed {β : Type} (v : String → β) :
    ∀ (ks : List String) (c : String), ks.Nodup → c ∈ ks →
      (ks.map (fun k => (k, v k))).filter (fun row => decide (row.1 = c)) = [(c, v c)] := by
  intro ks
  induction ks with
  | nil => intro c _ hc; simp at hc
  | cons k ks ih =>
    intro c hnd hc
    simp only [List.map_cons, List.filter_cons]
    by_cases hkc : k = c
    · subst hkc
      have hrest : (ks.map (fun k => (k, v k))).filter (fun row => decide (row.1 = k)) = [] := by
        rw [List.filter_eq_nil_iff]
        intro p hp
        obtain ⟨x, hx, rfl⟩ := List.mem_map.mp hp
        simp only [decide_eq_true_eq]
        intro e
        exact (List.nodup_cons.mp hnd).1 (e ▸ hx)
      simp [hrest]
    · have hc2 : c ∈ ks := by
        cases List.mem_cons.mp hc with
        | inl e => exact absurd e.symm hkc
        | inr h => exact h
      simp only [decide_eq_true_eq, if_neg hkc]
      exact ih c (List.nodup_cons.mp hnd).2 hc2

theorem groupSum_keys (rows : List (String × Int)) :
    (groupSum rows).map Prod.fst =
      List.insertionSort (fun a b => pyStrLe a b = true) (dedupFirst (rows.map Prod.fst)) := by
  unfold groupSum
  rw [List.map_map]
  have h : (Prod.fst ∘ fun codigo =>
      (codigo, sumQty (rows.filter (fun row => decide (row.1 = codigo))))) = @id String := rfl
  rw [h, List.map_id]

theorem groupSum_nodup_keys (rows : List (String × Int)) :
    ((groupSum rows).map Prod.fst).Nodup := by
  rw [groupSum_keys]
  exact ((List.perm_insertionSort _ _).nodup_iff).mpr (nodup_dedupFirst _)

theorem groupSum_sorted_keys (rows : List (String × Int)) :
    List.Sorted (fun a b => pyStrLe a b = true) ((groupSum rows).map Prod.fst) := by
  rw [groupSum_keys]
  exact List.sorted_insertionSort _ _

theorem groupSum_pos {rows : List (String × Int)} (hpos : ∀ r ∈ rows, 0 < r.2) :
    ∀ g ∈ groupSum rows, 0 < g.2 := by
  intro g hg
  simp only [groupSum, List.mem_map] at hg
  obtain ⟨c, hc, rfl⟩ := hg
  have hc2 : c ∈ rows.map Prod.fst :=
    mem_dedupFirst.mp ((List.perm_insertionSort _ _).mem_iff.mp hc)
  obtain ⟨r, hr, hrfst⟩ := List.mem_map.mp hc2
  apply sumQty_pos
  · exact List.ne_nil_of_mem (List.mem_filter.mpr ⟨hr, by simp [hrfst]⟩)
  · intro x hx
    exact hpos x (List.mem_filter.mp hx).1

theorem groupSum_ne_nil {rows : List (String × Int)} (h : rows ≠ []) : groupSum rows ≠ [] := by
  obtain ⟨r, rs, rfl⟩ : ∃ a l, rows = a :: l := by
    cases rows with
    | nil => exact absurd rfl h
    | cons a l => exact ⟨a, l, rfl⟩
  have h1 : r.1 ∈ (r :: rs).map Prod.fst := by simp
  have h2 : r.1 ∈ List.insertionSort (fun a b => pyStrLe a b = true)
      (dedupFirst ((r :: rs).map Prod.fst)) :=
    (List.perm_insertionSort _ _).mem_iff.mpr (mem_dedupFirst.mpr h1)
  have h3 : (r.1, sumQty ((r :: rs).filter (fun row => decide (row.1 = r.1)))) ∈
      groupSum (r :: rs) := by
    simp only [groupSum, List.mem_map]
    exact ⟨r.1, h2, rfl⟩
  exact List.ne_nil_of_mem h3

theorem groupSum_keyed (ks : List String) (v : String → Int) (hnd : ks.Nodup)
    (hs : List.Sorted (fun a b => pyStrLe a b = true) ks) :
    groupSum (ks.map (fun c => (c, v c))) = ks.map (fun c => (c, v c)) := by
  unfold groupSum
  have h1 : (ks.map (fun c => (c, v c))).map Prod.fst = ks := by
    rw [List.map_map]
    have h : (Prod.fst ∘ fun c => (c, v c)) = @id String := rfl
    rw [h, List.map_id]
  rw [h1, dedupFirst_eq_self hnd, hs.insertionSort_eq]
  apply List.map_congr_left
  intro c hc
  rw [filter_map_keyed v ks c hnd hc]
  simp [sumQty]

theorem groupSum_idem (rows : List (String × Int)) : groupSum (groupSum rows) = groupSum rows := by
  have hks : groupSum rows =
      (List.insertionSort (fun a b => pyStrLe a b = true) (dedupFirst (rows.map Prod.fst))).map
        (fun c => (c, sumQty (rows.filter (fun row => decide (row.1 = c))))) := rfl
  rw [hks]
  exact groupSum_keyed _ _
    (((List.perm_insertionSort _ _).nodup_iff).mpr (nodup_dedupFirst _))
    (List.sorted_insertionSort _ _)

theorem mem_flattenAgg {r : SalesRecord} {s : List (String × List Item)} :
    r ∈ flattenAgg s ↔ ∃ p ∈ s, ∃ it ∈ p.2, r = ⟨p.1, it.reference, it.qty⟩ := by
  simp only [flattenAgg, List.mem_flatMap, List.mem_map]
  constructor
  · rintro ⟨p, hp, it, hit, rfl⟩
    exact ⟨p, hp, it, hit, rfl⟩
  · rintro ⟨p, hp, it, hit, rfl⟩
    exact ⟨p, hp, it, hit, rfl⟩

theorem filter_flattenAgg (s : List (String × List Item)) (n : String) :
    (flattenAgg s).filter (fun r => decide (r.nif = n)) =
      (s.filter (fun p => decide (p.1 = n))).flatMap
        (fun p => p.2.map (fun it => (⟨p.1, it.reference, it.qty⟩ : SalesRecord))) := by
  induction s with
  | nil => rfl
  | cons p ps ih =>
    simp only [flattenAgg, List.flatMap_cons, List.filter_append, List.filter_cons]
    rw [List.filter_map]
    by_cases hp : p.1 = n
    · have hcomp : ((fun r => decide (r.nif = n)) ∘
          fun it : Item => (⟨p.1, it.reference, it.qty⟩ : SalesRecord)) = fun _ => true := by
        funext it
        simp [Function.comp, hp]
      rw [hcomp, List.filter_true]
      simp only [decide_eq_true_eq, if_pos hp, List.flatMap_cons]
      rw [← ih]
      rfl
    · have hcomp : ((fun r => decide (r.nif = n)) ∘
          fun it : Item => (⟨p.1, it.reference, it.qty⟩ : SalesRecord)) = fun _ => false := by
        funext it
        simp [Function.comp, hp]
      rw [hcomp, List.filter_false]
      simp only [decide_eq_true_eq, if_neg hp, List.nil_append]
      rw [← ih]
      rfl

theorem dedupAux_flattenAgg :
    ∀ (s : List (String × List Item)) (seen : List String),
      (s.map Prod.fst).Nodup → (∀ p ∈ s, p.2 ≠ []) → (∀ p ∈ s, p.1 ∉ seen) →
      dedupFirstAux seen ((flattenAgg s).map SalesRecord.nif) = s.map Prod.fst := by
  intro s
  induction s with
  | nil => intro seen _ _ _; rfl
  | cons p ps ih =>
    intro seen hnd hne hseen
    obtain ⟨it, its, hp2⟩ : ∃ a l, p.2 = a :: l := by
      cases hps : p.2 with
      | nil => exact absurd hps (hne p (List.mem_cons_self p ps))
      | cons a l => exact ⟨a, l, rfl⟩
    simp only [flattenAgg, List.flatMap_cons, List.map_append, List.map_map, List.map_cons]
    rw [hp2]
    simp only [List.map_cons, List.cons_append]
    have hcomp : (SalesRecord.nif ∘ fun it : Item =>
        (⟨p.1, it.reference, it.qty⟩ : SalesRecord)) = fun _ => p.1 := by
      funext x
      rfl
    rw [hcomp]
    simp only [dedupFirstAux]
    rw [if_neg (hseen p (List.mem_cons_self p ps))]
    congr 1
    rw [dedupFirstAux_append_seen _ _ _ (by
      intro x hx
      obtain ⟨y, _, rfl⟩ := List.mem_map.mp hx
      exact List.mem_cons_self p.1 seen)]
    have hndtail := (List.nodup_cons.mp hnd).2
    have hhead := (List.nodup_cons.mp hnd).1
    exact ih (p.1 :: seen) hndtail (fun q hq => hne q (List.mem_cons_of_mem p hq))
      (fun q hq => by
        simp only [List.mem_cons]
        rintro (e | h)
        · exact hhead (e ▸ List.mem_map_of_mem Prod.fst hq)
        · exact hseen q (List.mem_cons_of_mem p hq) h)

theorem create_sales_items_def (df : List SalesRecord) :
    ProcessSales.create_sales_items df =
      (dedupFirst (df.map SalesRecord.nif)).map (fun nif =>
        (nif, (groupSum ((df.filter (fun r => decide (r.nif = nif))).map
          (fun r => (r.codigo, r.qty)))).map (fun row => (⟨row.1, row.2⟩ : Item)))) := rfl

theorem create_sales_items_fst (df : List SalesRecord) :
    (ProcessSales.create_sales_items df).map Prod.fst = dedupFirst (df.map SalesRecord.nif) := by
  rw [create_sales_items_def, List.map_map]
  have h : (Prod.fst ∘ fun nif =>
      (nif, (groupSum ((df.filter (fun r => decide (r.nif = nif))).map
        (fun r => (r.codigo, r.qty)))).map (fun row => (⟨row.1, row.2⟩ : Item)))) =
      @id String := rfl
  rw [h, List.map_id]

theorem create_sales_items_snd_ne_nil (df : List SalesRecord) :
    ∀ p ∈ ProcessSales.create_sales_items df, p.2 ≠ [] := by
  intro p hp
  rw [create_sales_items_def] at hp
  obtain ⟨n, hn, rfl⟩ := List.mem_map.mp hp
  have hn2 : n ∈ df.map SalesRecord.nif := mem_dedupFirst.mp hn
  obtain ⟨r, hr, hrn⟩ := List.mem_map.mp hn2
  have hrf : r ∈ df.filter (fun r => decide (r.nif = n)) :=
    List.mem_filter.mpr ⟨hr, by simp [hrn]⟩
  have hcl : (df.filter (fun r => decide (r.nif = n))).map (fun r => (r.codigo, r.qty)) ≠ [] := by
    intro h
    rw [List.map_eq_nil_iff] at h
    rw [h] at hrf
    exact absurd hrf (List.not_mem_nil r)
  intro h
  rw [List.map_eq_nil_iff] at h
  exact groupSum_ne_nil hcl h

theorem create_sales_items_pos {df : List SalesRecord} (hdf : ∀ r ∈ df, 0 < r.qty) :
    ∀ p ∈ ProcessSales.create_sales_items df, ∀ it ∈ p.2, 0 < it.qty := by
  intro p hp it hit
  rw [create_sales_items_def] at hp
  obtain ⟨n, hn, rfl⟩ := List.mem_map.mp hp
  simp only at hit
  obtain ⟨row, hrow, rfl⟩ := List.mem_map.mp hit
  refine groupSum_pos ?_ row hrow
  intro x hx
  obtain ⟨r, hr, rfl⟩ := List.mem_map.mp hx
  exact hdf r (List.mem_filter.mp hr).1

theorem create_sales_items_refs_nodup (df : List SalesRecord) :
    ∀ p ∈ ProcessSales.create_sales_items df, (p.2.map Item.reference).Nodup := by
  intro p hp
  rw [create_sales_items_def] at hp
  obtain ⟨n, hn, rfl⟩ := List.mem_map.mp hp
  simp only
  rw [List.map_map]
  have h : (Item.reference ∘ fun row : String × Int => (⟨row.1, row.2⟩ : Item)) =
      @Prod.fst String Int := rfl
  rw [h]
  exact groupSum_nodup_keys _

theorem create_sales_items_flattenAgg (df : List SalesRecord) :
    ProcessSales.create_sales_items (flattenAgg (ProcessSales.create_sales_items df)) =
      ProcessSales.create_sales_items df := by
  have hnd : (dedupFirst (df.map SalesRecord.nif)).Nodup := nodup_dedupFirst _
  have hdedup : dedupFirst ((flattenAgg (ProcessSales.create_sales_items df)).map
      SalesRecord.nif) = dedupFirst (df.map SalesRecord.nif) := by
    have h1 : ((ProcessSales.create_sales_items df).map Prod.fst).Nodup := by
      rw [create_sales_items_fst]
      exact hnd
    have := dedupAux_flattenAgg (ProcessSales.create_sales_items df) [] h1
      (create_sales_items_snd_ne_nil df) (by simp)
    rw [dedupFirst, this, create_sales_items_fst]
  rw [create_sales_items_def (flattenAgg (ProcessSales.create_sales_items df)), hdedup]
  conv_rhs => rw [create_sales_items_def df]
  apply List.map_congr_left
  intro n hn
  have hAfilter : (ProcessSales.create_sales_items df).filter (fun p => decide (p.1 = n)) =
      [(n, (groupSum ((df.filter (fun r => decide (r.nif = n))).map
        (fun r => (r.codigo, r.qty)))).map (fun row => (⟨row.1, row.2⟩ : Item)))] := by
    rw [create_sales_items_def]
    exact filter_map_keyed _ _ n hnd hn
  have hfilter : (flattenAgg (ProcessSales.create_sales_items df)).filter
      (fun r => decide (r.nif = n)) =
      (((groupSum ((df.filter (fun r => decide (r.nif = n))).map
        (fun r => (r.codigo, r.qty)))).map (fun row => (⟨row.1, row.2⟩ : Item))).map
        (fun it => (⟨n, it.reference, it.qty⟩ : SalesRecord))) := by
    rw [filter_flattenAgg, hAfilter]
    simp
  have hclient : ((flattenAgg (ProcessSales.create_sales_items df)).filter
      (fun r => decide (r.nif = n))).map (fun r => (r.codigo, r.qty)) =
      groupSum ((df.filter (fun r => decide (r.nif = n))).map (fun r => (r.codigo, r.qty))) := by
    rw [hfilter]
    simp only [List.map_map]
    have hcomp : ((fun r : SalesRecord => (r.codigo, r.qty)) ∘
        ((fun it : Item => (⟨n, it.reference, it.qty⟩ : SalesRecord)) ∘
          (fun row : String × Int => (⟨row.1, row.2⟩ : Item)))) = @id (String × Int) := rfl
    rw [hcomp, List.map_id]
  rw [hclient, groupSum_idem]

theorem flat_pairs_nodup (s : List (String × List Item))
    (h1 : (s.map Prod.fst).Nodup) (h2 : ∀ p ∈ s, (p.2.map Item.reference).Nodup) :
    (s.flatMap (fun p => p.2.map (fun it => (p.1, it.reference)))).Nodup := by
  induction s with
  | nil => simp
  | cons p ps ih =>
    simp only [List.flatMap_cons]
    rw [List.nodup_append]
    refine ⟨?_, ih (List.nodup_cons.mp h1).2 (fun q hq => h2 q (List.mem_cons_of_mem p hq)), ?_⟩
    · have he : p.2.map (fun it => (p.1, it.reference)) =
          (p.2.map Item.reference).map (fun c => (p.1, c)) := by
        rw [List.map_map]
        rfl
      rw [he]
      exact (h2 p (List.mem_cons_self p ps)).map (fun a b hab => congrArg Prod.snd hab)
    · intro x hx1 hx2
      obtain ⟨it, hit, rfl⟩ := List.mem_map.mp hx1
      simp only [List.mem_flatMap, List.mem_map] at hx2
      obtain ⟨q, hq, it2, hit2, heq⟩ := hx2
      have hq1 : q.1 = p.1 := (Prod.ext_iff.mp heq).1
      exact (List.nodup_cons.mp h1).1 (hq1 ▸ List.mem_map_of_mem Prod.fst hq)

theorem aggregate_filter_invariant (records : List SalesRecord) :
    ProcessSales.aggregate records =
      ProcessSales.aggregate (records.filter (fun r => decide (0 < r.qty))) := by
  unfold ProcessSales.aggregate
  congr 1
  exact (List.filter_eq_self.mpr (fun r hr => (List.mem_filter.mp hr).2)).symm

theorem aggregate_idem (records : List SalesRecord) :
    ProcessSales.aggregate (flattenAgg (ProcessSales.aggregate records)) =
      ProcessSales.aggregate records := by
  unfold ProcessSales.aggregate
  have hpos : ∀ r ∈ records.filter (fun r => decide (0 < r.qty)), 0 < r.qty := by
    intro r hr
    exact of_decide_eq_true (List.mem_filter.mp hr).2
  have hflatpos : ∀ r ∈ flattenAgg (ProcessSales.create_sales_items
      (records.filter (fun r => decide (0 < r.qty)))), 0 < r.qty := by
    intro r hr
    obtain ⟨p, hp, it, hit, rfl⟩ := mem_flattenAgg.mp hr
    exact create_sales_items_pos hpos p hp it hit
  rw [List.filter_eq_self.mpr (fun r hr => decide_eq_true (hflatpos r hr))]
  exact create_sales_items_flattenAgg _

theorem aggregate_pairs_nodup (records : List SalesRecord) :
    ((ProcessSales.aggregate records).flatMap
      (fun p => p.2.map (fun it => (p.1, it.reference)))).Nodup := by
  unfold ProcessSales.aggregate
  apply flat_pairs_nodup
  · rw [create_sales_items_fst]
    exact nodup_dedupFirst _
  · exact create_sales_items_refs_nodup _

theorem pyTake_of_short {s : String} {n : Nat} (h : s.data.length ≤ n) : pyTake n s = s := by
  unfold pyTake
  rw [List.take_of_length_le h]

theorem filter_files_exclude_nifs_aux (excluded_nifs : List String)
    (start_date end_date : String) :
    ∀ (files acc : List DriveFile),
      files.foldl
        (fun filtered_files file =>
          if !(excluded_nifs.any (fun nif => strContains file.name nif)) then
            let created_time := pyTake 10 file.name
            if pyStrLe start_date created_time && pyStrLe created_time end_date then
              filtered_files ++ [file]
            else filtered_files
          else filtered_files)
        acc =
      acc ++ files.filter (specExclusionSelect excluded_nifs start_date end_date) := by
  intro files
  induction files with
  | nil => intro acc; simp
  | cons f fs ih =>
    intro acc
    by_cases h1 : (excluded_nifs.any (fun nif => strContains f.name nif)) = true
    · have hall : excluded_nifs.all (fun nif => !(strContains f.name nif)) = false := by
        obtain ⟨nif, hmem, hc⟩ := List.any_eq_true.mp h1
        apply Bool.eq_false_iff.mpr
        intro hall
        have := List.all_eq_true.mp hall nif hmem
        rw [hc] at this
        simp at this
      have hsel : specExclusionSelect excluded_nifs start_date end_date f = false := by
        unfold specExclusionSelect
        rw [hall, Bool.false_and]
      simp only [List.foldl_cons, List.filter_cons, h1, hsel, Bool.not_true, Bool.false_eq_true,
        if_false]
      exact ih acc
    · have h1f : (excluded_nifs.any (fun nif => strContains f.name nif)) = false :=
        Bool.eq_false_iff.mpr h1
      have hall : excluded_nifs.all (fun nif => !(strContains f.name nif)) = true := by
        rw [List.all_eq_true]
        intro nif hmem
        have hc : strContains f.name nif = false := by
          apply Bool.eq_false_iff.mpr
          intro hc
          exact h1 (List.any_eq_true.mpr ⟨nif, hmem, hc⟩)
        rw [hc]
        rfl
      by_cases h2 : (pyStrLe start_date (pyTake 10 f.name) &&
          pyStrLe (pyTake 10 f.name) end_date) = true
      · have hsel : specExclusionSelect excluded_nifs start_date end_date f = true := by
          unfold specExclusionSelect
          rw [hall, h2, Bool.true_and]
        simp only [List.foldl_cons, List.filter_cons, h1f, h2, hsel, Bool.not_false, if_true]
        rw [ih (acc ++ [f])]
        simp [List.append_assoc]
      · have h2f : (pyStrLe start_date (pyTake 10 f.name) &&
            pyStrLe (pyTake 10 f.name) end_date) = false := Bool.eq_false_iff.mpr h2
        have hsel : specExclusionSelect excluded_nifs start_date end_date f = false := by
          unfold specExclusionSelect
          rw [hall, h2f, Bool.true_and]
        simp only [List.foldl_cons, List.filter_cons, h1f, h2f, hsel, Bool.not_false, if_true,
          Bool.false_eq_true, if_false]
        exact ih acc

theorem filter_files_exclude_nifs_eq (files : List DriveFile) (excluded_nifs : List String)
    (start_date end_date : String) :
    ProcessSales.filter_files_exclude_nifs files excluded_nifs start_date end_date =
      files.filter (specExclusionSelect excluded_nifs start_date end_date) := by
  unfold ProcessSales.filter_files_exclude_nifs
  rw [filter_files_exclude_nifs_aux excluded_nifs start_date end_date files []]
  simp

theorem filter_files_aux (nif : String) (start_date end_date : String) :
    ∀ (files acc : List DriveFile),
      files.foldl
        (fun filtered_files file =>
          if strContains file.name nif then
            let created_time := pyTake 10 file.name
            if pyStrLe start_date created_time && pyStrLe created_time end_date then
              filtered_files ++ [file]
            else filtered_files
          else filtered_files)
        acc =
      acc ++ files.filter (fun file => strContains file.name nif &&
        (pyStrLe start_date (pyTake 10 file.name) && pyStrLe (pyTake 10 file.name) end_date)) := by
  intro files
  induction files with
  | nil => intro acc; simp
  | cons f fs ih =>
    intro acc
    by_cases h1 : strContains f.name nif = true
    · by_cases h2 : (pyStrLe start_date (pyTake 10 f.name) &&
          pyStrLe (pyTake 10 f.name) end_date) = true
      · simp only [List.foldl_cons, List.filter_cons, h1, h2, Bool.true_and, if_true]
        rw [ih (acc ++ [f])]
        simp [List.append_assoc]
      · have h2f := Bool.eq_false_iff.mpr h2
        simp only [List.foldl_cons, List.filter_cons, h1, h2f, Bool.true_and,
          Bool.false_eq_true, if_true, if_false]
        exact ih acc
    · have h1f := Bool.eq_false_iff.mpr h1
      simp only [List.foldl_cons, List.filter_cons, h1f, Bool.false_and,
        Bool.false_eq_true, if_false]
      exact ih acc

theorem filter_files_eq (files : List DriveFile) (nif : String) (start_date end_date : String) :
    ProcessSevenSales.filter_files files nif start_date end_date =
      files.filter (fun file => strContains file.name nif &&
        (pyStrLe start_date (pyTake 10 file.name) && pyStrLe (pyTake 10 file.name) end_date)) := by
  unfold ProcessSevenSales.filter_files
  rw [filter_files_aux nif start_date end_date files []]
  simp

theorem send_invoices_eq (payloads : List Payload) (net : Payload → SendOutcome) :
    ProcessSales.send_invoices payloads net =
      (payloads.all (fun p => outcomeOk (net p)),
       payloads.takeWhile (fun p => outcomeOk (net p)) ++
         (payloads.drop (payloads.takeWhile (fun p => outcomeOk (net p))).length).take 1) := by
  induction payloads with
  | nil => rfl
  | cons p rest ih =>
    cases hnp : net p with
    | netError =>
      simp [ProcessSales.send_invoices, hnp, List.takeWhile_cons, outcomeOk]
    | status code =>
      by_cases hc : code = 200 ∨ code = 201
      · simp [ProcessSales.send_invoices, hnp, List.takeWhile_cons, outcomeOk, hc, ih,
          List.drop_succ_cons]
      · simp [ProcessSales.send_invoices, hnp, List.takeWhile_cons, outcomeOk, hc]

theorem process_sales_run_trivial {config : ProcessSales.Config} {files : List DriveFile}
    {rows : String → List CsvRow} {net : Payload → SendOutcome}
    {start_date end_date : String} {dry_run : Bool} {now : Nat}
    (hk : config.serviceAccountKeyPath ≠ "") (ha : config.vendusApiKey ≠ "")
    (h : ProcessSales.filter_files_exclude_nifs files config.excludedNifs start_date
        end_date = [] ∨
      ProcessSales.create_sales_items (ProcessSales.process_csv_files
        ((ProcessSales.filter_files_exclude_nifs files config.excludedNifs start_date
          end_date).map DriveFile.name) rows) = []) :
    ProcessSales.run config files rows net start_date end_date dry_run now = ⟨true, [], []⟩ := by
  simp only [ProcessSales.run]
  rw [if_neg hk, if_neg ha]
  cases h with
  | inl h => rw [if_pos h]
  | inr h =>
    by_cases hfil : ProcessSales.filter_files_exclude_nifs files config.excludedNifs
        start_date end_date = []
    · rw [if_pos hfil]
    · rw [if_neg hfil, if_pos h]

theorem seven_run_trivial {config : ProcessSevenSales.Config} {files : List DriveFile}
    {rows : String → List CsvRow} {net : Payload → SendOutcome}
    {start_date end_date : String} {dry_run : Bool}
    (hk : config.serviceAccountKeyPath ≠ "") (ha : config.vendusApiKey ≠ "")
    (h : ProcessSevenSales.filter_files files config.nif start_date end_date = [] ∨
      ProcessSevenSales.create_sales_items (ProcessSevenSales.process_csv_files
        ((ProcessSevenSales.filter_files files config.nif start_date end_date).map
          DriveFile.name) rows) = []) :
    ProcessSevenSales.run config files rows net start_date end_date dry_run = ⟨true, [], []⟩ := by
  simp only [ProcessSevenSales.run]
  rw [if_neg hk, if_neg ha]
  cases h with
  | inl h => rw [if_pos h]
  | inr h =>
    by_cases hfil : ProcessSevenSales.filter_files files config.nif start_date end_date = []
    · rw [if_pos hfil]
    · rw [if_neg hfil, if_pos h]

theorem mtb_run_trivial {config : ProcessMtbSales.Config} {listing : ProcessMtbSales.ApiListing}
    {net : Payload → SendOutcome} {dry_run : Bool} {now due_days : Nat}
    (hk : config.mtbVendusApiKey ≠ "") (ha : config.vendusApiKey ≠ "")
    (h : ProcessMtbSales.get_products_with_negative_qty listing = []) :
    ProcessMtbSales.run config listing net dry_run now due_days = ⟨true, [], []⟩ := by
  simp only [ProcessMtbSales.run]
  rw [if_neg hk, if_neg ha, if_pos h]

theorem mem_built_process_sales {config : ProcessSales.Config} {files : List DriveFile}
    {rows : String → List CsvRow} {net : Payload → SendOutcome}
    {start_date end_date : String} {dry_run : Bool} {now : Nat} {p : Payload}
    (hp : p ∈ (ProcessSales.run config files rows net start_date end_date dry_run now).built) :
    ∃ client_sales ∈ ProcessSales.create_sales_items (ProcessSales.process_csv_files
        ((ProcessSales.filter_files_exclude_nifs files config.excludedNifs start_date
          end_date).map DriveFile.name) rows),
      p = ⟨some client_sales.1, none, if dry_run then "PF" else "FT",
        some (ProcessSales.get_due_date now 15), config.mode, none, client_sales.2, none⟩ := by
  simp only [ProcessSales.run] at hp
  by_cases h1 : config.serviceAccountKeyPath = ""
  · rw [if_pos h1] at hp
    simp at hp
  rw [if_neg h1] at hp
  by_cases h2 : config.vendusApiKey = ""
  · rw [if_pos h2] at hp
    simp at hp
  rw [if_neg h2] at hp
  by_cases h3 : ProcessSales.filter_files_exclude_nifs files config.excludedNifs start_date
      end_date = []
  · rw [if_pos h3] at hp
    simp at hp
  rw [if_neg h3] at hp
  by_cases h4 : ProcessSales.create_sales_items (ProcessSales.process_csv_files
      ((ProcessSales.filter_files_exclude_nifs files config.excludedNifs start_date
        end_date).map DriveFile.name) rows) = []
  · rw [if_pos h4] at hp
    simp at hp
  rw [if_neg h4] at hp
  simp only [ProcessSales.create_invoices_payloads, List.mem_map] at hp
  obtain ⟨cs, hcs, rfl⟩ := hp
  exact ⟨cs, hcs, rfl⟩

theorem mem_built_seven {config : ProcessSevenSales.Config} {files : List DriveFile}
    {rows : String → List CsvRow} {net : Payload → SendOutcome}
    {start_date end_date : String} {dry_run : Bool} {p : Payload}
    (hp : p ∈ (ProcessSevenSales.run config files rows net start_date end_date dry_run).built) :
    p = ProcessSevenSales.create_invoice_payload
      (ProcessSevenSales.create_sales_items (ProcessSevenSales.process_csv_files
        ((ProcessSevenSales.filter_files files config.nif start_date end_date).map
          DriveFile.name) rows))
      (if dry_run then "PF" else "FR") config.registerId config.mode
      (if dry_run then none else some config.paymentId) := by
  simp only [ProcessSevenSales.run] at hp
  by_cases h1 : config.serviceAccountKeyPath = ""
  · rw [if_pos h1] at hp
    simp at hp
  rw [if_neg h1] at hp
  by_cases h2 : config.vendusApiKey = ""
  · rw [if_pos h2] at hp
    simp at hp
  rw [if_neg h2] at hp
  by_cases h3 : ProcessSevenSales.filter_files files config.nif start_date end_date = []
  · rw [if_pos h3] at hp
    simp at hp
  rw [if_neg h3] at hp
  by_cases h4 : ProcessSevenSales.create_sales_items (ProcessSevenSales.process_csv_files
      ((ProcessSevenSales.filter_files files config.nif start_date end_date).map
        DriveFile.name) rows) = []
  · rw [if_pos h4] at hp
    simp at hp
  rw [if_neg h4] at hp
  simp only [List.mem_singleton] at hp
  exact hp

theorem mem_built_mtb {config : ProcessMtbSales.Config} {listing : ProcessMtbSales.ApiListing}
    {net : Payload → SendOutcome} {dry_run : Bool} {now due_days : Nat} {p : Payload}
    (hp : p ∈ (ProcessMtbSales.run config listing net dry_run now due_days).built) :
    p = (if dry_run then
        ProcessMtbSales.create_ft_document_payload
          (ProcessMtbSales.create_sales_items_from_products
            (ProcessMtbSales.get_products_with_negative_qty listing))
          (ProcessMtbSales.get_due_date now due_days) "PF" config.mtbNif config.mode
      else
        ProcessMtbSales.create_ft_document_payload
          (ProcessMtbSales.create_sales_items_from_products
            (ProcessMtbSales.get_products_with_negative_qty listing))
          (ProcessMtbSales.get_due_date now due_days) "FT" config.mtbNif config.mode) := by
  simp only [ProcessMtbSales.run] at hp
  by_cases h1 : config.mtbVendusApiKey = ""
  · rw [if_pos h1] at hp
    simp at hp
  rw [if_neg h1] at hp
  by_cases h2 : config.vendusApiKey = ""
  · rw [if_pos h2] at hp
    simp at hp
  rw [if_neg h2] at hp
  by_cases h3 : ProcessMtbSales.get_products_with_negative_qty listing = []
  · rw [if_pos h3] at hp
    simp at hp
  rw [if_neg h3] at hp
  simp only [List.mem_singleton] at hp
  exact hp

theorem create_invoice_payload_type (sales : List Item) (document_type register_id mode : String)
    (payment_id : Option String) :
    (ProcessSevenSales.create_invoice_payload sales document_type register_id mode
      payment_id).type = document_type := by
  unfold ProcessSevenSales.create_invoice_payload
  cases payment_id with
  | none => rfl
  | some pid =>
    dsimp only
    split_ifs <;> rfl

theorem create_invoice_payload_date_due (sales : List Item)
    (document_type register_id mode : String) (payment_id : Option String) :
    (ProcessSevenSales.create_invoice_payload sales document_type register_id mode
      payment_id).date_due = none := by
  unfold ProcessSevenSales.create_invoice_payload
  cases payment_id with
  | none => rfl
  | some pid =>
    dsimp only
    split_ifs <;> rfl

theorem create_invoice_payload_payments_none (sales : List Item)
    (document_type register_id mode : String) :
    (ProcessSevenSales.create_invoice_payload sales document_type register_id mode
      none).payments = none := rfl

theorem create_invoice_payload_payments_some (sales : List Item)
    (document_type register_id mode : String) {pid : String} (h : pid ≠ "") :
    (ProcessSevenSales.create_invoice_payload sales document_type register_id mode
      (some pid)).payments = some [pid] := by
  unfold ProcessSevenSales.create_invoice_payload
  dsimp only
  rw [if_neg (by simp [h])]

/-- C1: In the general variant, aggregation first discards every record
with quantity ≤ 0 and then groups by (client NIF, product code) summing
quantities, so non-positive records never contribute to any line item: the
aggregate of any record list equals the aggregate of its positive-quantity
restriction, and the spec's scenario
`[(A,X,3),(A,X,2),(A,Y,-1)] → [(A,X,5)]` holds. -/
theorem claim_C1 :
    (∀ records : List SalesRecord,
      ProcessSales.aggregate records =
        ProcessSales.aggregate (records.filter (fun r => decide (0 < r.qty)))) ∧
    ProcessSales.aggregate [⟨"A", "X", 3⟩, ⟨"A", "X", 2⟩, ⟨"A", "Y", -1⟩] =
      [("A", [⟨"X", 5⟩])] :=
  ⟨aggregate_filter_invariant, by decide⟩

/-- C2: The exclusion-mode selector returns exactly the files whose name
contains none of the excluded NIFs and whose first ten characters satisfy
`start_date ≤ name[0:10] ≤ end_date` lexicographically, inclusive at both
ends; of the spec's two files only the first is selected, and a file
sitting exactly on the start boundary passes. -/
theorem claim_C2 :
    (∀ (files : List DriveFile) (excluded_nifs : List String) (start_date end_date : String),
      ProcessSales.filter_files_exclude_nifs files excluded_nifs start_date end_date =
        files.filter (specExclusionSelect excluded_nifs start_date end_date)) ∧
    ProcessSales.filter_files_exclude_nifs
      [⟨"f1", "2024-03-05_data_5480033140.csv"⟩, ⟨"f2", "2024-03-20_data_5417196215.csv"⟩]
      ["5417196215"] "2024-03-01" "2024-03-31" = [⟨"f1", "2024-03-05_data_5480033140.csv"⟩] ∧
    ProcessSales.filter_files_exclude_nifs [⟨"f3", "2024-03-01_data_111.csv"⟩] []
      "2024-03-01" "2024-03-31" = [⟨"f3", "2024-03-01_data_111.csv"⟩] :=
  ⟨filter_files_exclude_nifs_eq, by decide, by decide⟩

/-- C3: The general dispatcher submits payloads sequentially in order; a
submission succeeds iff its status is 200 or 201; it stops at the first
failure, returning overall failure with no later payload ever sent, and
returns success iff every payload succeeded: its result is exactly
(all-ok, successful prefix plus the first failing payload if any).  The
spec's scenario — two payloads, 500 on the first — fails immediately with
only the first payload sent. -/
theorem claim_C3 :
    (∀ (payloads : List Payload) (net : Payload → SendOutcome),
      ProcessSales.send_invoices payloads net =
        (payloads.all (fun p => outcomeOk (net p)),
         payloads.takeWhile (fun p => outcomeOk (net p)) ++
           (payloads.drop (payloads.takeWhile (fun p => outcomeOk (net p))).length).take 1)) ∧
    (∀ (p1 p2 : Payload) (net : Payload → SendOutcome), net p1 = SendOutcome.status 500 →
      ProcessSales.send_invoices [p1, p2] net = (false, [p1])) :=
  ⟨send_invoices_eq, by
    intro p1 p2 net h
    simp [ProcessSales.send_invoices, h]⟩

/-- Witness for C3: two concrete payloads and a network answering 500; the
dispatcher fails at once, having submitted only the first payload. -/
theorem claim_C3_witness :
    ProcessSales.send_invoices
      [⟨some "A", none, "FT", some 15, "normal", none, [⟨"X", 3⟩], none⟩,
       ⟨some "B", none, "FT", some 15, "normal", none, [⟨"Y", 2⟩], none⟩]
      (fun _ => SendOutcome.status 500) =
      (false, [⟨some "A", none, "FT", some 15, "normal", none, [⟨"X", 3⟩], none⟩]) :=
  claim_C3.2 _ _ _ rfl

/-- C4: With valid credentials, a stage producing zero output after
filtering or aggregation short-circuits every variant's run to success
with nothing built and nothing dispatched: an empty filtered file list or
an empty sales-item list in the general and gym variants, and an empty
negative-stock product list in the MTB variant. -/
theorem claim_C4 :
    (∀ (config : ProcessSales.Config) (files : List DriveFile) (rows : String → List CsvRow)
        (net : Payload → SendOutcome) (start_date end_date : String) (dry_run : Bool) (now : Nat),
      config.serviceAccountKeyPath ≠ "" → config.vendusApiKey ≠ "" →
      (ProcessSales.filter_files_exclude_nifs files config.excludedNifs start_date
          end_date = [] ∨
        ProcessSales.create_sales_items (ProcessSales.process_csv_files
          ((ProcessSales.filter_files_exclude_nifs files config.excludedNifs start_date
            end_date).map DriveFile.name) rows) = []) →
      ProcessSales.run config files rows net start_date end_date dry_run now = ⟨true, [], []⟩) ∧
    (∀ (config : ProcessSevenSales.Config) (files : List DriveFile)
        (rows : String → List CsvRow) (net : Payload → SendOutcome)
        (start_date end_date : String) (dry_run : Bool),
      config.serviceAccountKeyPath ≠ "" → config.vendusApiKey ≠ "" →
      (ProcessSevenSales.filter_files files config.nif start_date end_date = [] ∨
        ProcessSevenSales.create_sales_items (ProcessSevenSales.process_csv_files
          ((ProcessSevenSales.filter_files files config.nif start_date end_date).map
            DriveFile.name) rows) = []) →
      ProcessSevenSales.run config files rows net start_date end_date dry_run = ⟨true, [], []⟩) ∧
    (∀ (config : ProcessMtbSales.Config) (listing : ProcessMtbSales.ApiListing)
        (net : Payload → SendOutcome) (dry_run : Bool) (now due_days : Nat),
      config.mtbVendusApiKey ≠ "" → config.vendusApiKey ≠ "" →
      ProcessMtbSales.get_products_with_negative_qty listing = [] →
      ProcessMtbSales.run config listing net dry_run now due_days = ⟨true, [], []⟩) :=
  ⟨fun _ _ _ _ _ _ _ _ hk ha h => process_sales_run_trivial hk ha h,
   fun _ _ _ _ _ _ _ hk ha h => seven_run_trivial hk ha h,
   fun _ _ _ _ _ _ hk ha h => mtb_run_trivial hk ha h⟩

/-- Witness for C4: an empty Drive listing short-circuits the general and
gym runs, and an empty product list short-circuits the MTB run, each to
success with zero dispatches. -/
theorem claim_C4_witness :
    ProcessSales.run sampleSalesConfig [] sampleRows okNet "2024-03-01" "2024-03-31" false 0 =
      ⟨true, [], []⟩ ∧
    ProcessSevenSales.run sampleSevenConfig [] sampleRows okNet "2024-03-01" "2024-03-31"
      false = ⟨true, [], []⟩ ∧
    ProcessMtbSales.run sampleMtbConfig (ProcessMtbSales.ApiListing.response 200 []) okNet
      false 0 15 = ⟨true, [], []⟩ :=
  ⟨claim_C4.1 sampleSalesConfig [] sampleRows okNet "2024-03-01" "2024-03-31" false 0
      (by decide) (by decide) (Or.inl rfl),
   claim_C4.2.1 sampleSevenConfig [] sampleRows okNet "2024-03-01" "2024-03-31" false
      (by decide) (by decide) (Or.inl rfl),
   claim_C4.2.2 sampleMtbConfig (ProcessMtbSales.ApiListing.response 200 []) okNet false 0 15
      (by decide) (by decide) rfl⟩

/-- C5: The document type of every built payload is a pure function of the
dry-run flag: dry-run gives "PF" in all three variants; production gives
the literal "FT" in the general variant, the distinct literal "FR" in the
gym variant, and "FT" in the MTB variant. -/
theorem claim_C5 :
    (∀ (config : ProcessSales.Config) (files : List DriveFile) (rows : String → List CsvRow)
        (net : Payload → SendOutcome) (start_date end_date : String) (dry_run : Bool) (now : Nat),
      ∀ p ∈ (ProcessSales.run config files rows net start_date end_date dry_run now).built,
        p.type = if dry_run then "PF" else "FT") ∧
    (∀ (config : ProcessSevenSales.Config) (files : List DriveFile)
        (rows : String → List CsvRow) (net : Payload → SendOutcome)
        (start_date end_date : String) (dry_run : Bool),
      ∀ p ∈ (ProcessSevenSales.run config files rows net start_date end_date dry_run).built,
        p.type = if dry_run then "PF" else "FR") ∧
    (∀ (config : ProcessMtbSales.Config) (listing : ProcessMtbSales.ApiListing)
        (net : Payload → SendOutcome) (dry_run : Bool) (now due_days : Nat),
      ∀ p ∈ (ProcessMtbSales.run config listing net dry_run now due_days).built,
        p.type = if dry_run then "PF" else "FT") := by
  refine ⟨?_, ?_, ?_⟩
  · intro config files rows net start_date end_date dry_run now p hp
    obtain ⟨cs, _, rfl⟩ := mem_built_process_sales hp
    rfl
  · intro config files rows net start_date end_date dry_run p hp
    rw [mem_built_seven hp]
    exact create_invoice_payload_type _ _ _ _ _
  · intro config listing net dry_run now due_days p hp
    rw [mem_built_mtb hp]
    cases dry_run <;> rfl

/-- Witness for C5: the payloads of concrete production runs of the three
variants carry types "FT", "FR" and "FT" respectively. -/
theorem claim_C5_witness :
    Payload.type ⟨some "data_5480033140", none, "FT", some 15, "normal", none,
      [⟨"X", 3⟩], none⟩ = "FT" ∧
    Payload.type ⟨none, some "217465187", "FR", none, "normal", some "Seven Gym",
      [⟨"X", 3⟩], some ["85469894"]⟩ = "FR" ∧
    Payload.type ⟨some "5417196215", none, "FT", some 15, "normal", none,
      [⟨"P1", 3⟩], none⟩ = "FT" :=
  ⟨claim_C5.1 sampleSalesConfig [sampleFile] sampleRows okNet "2024-03-01" "2024-03-31"
      false 0 ⟨some "data_5480033140", none, "FT", some 15, "normal", none,
        [⟨"X", 3⟩], none⟩ (by decide),
   claim_C5.2.1 sampleSevenConfig [sampleFile] sampleRows okNet "2024-03-01" "2024-03-31"
      false ⟨none, some "217465187", "FR", none, "normal", some "Seven Gym",
        [⟨"X", 3⟩], some ["85469894"]⟩ (by decide),
   claim_C5.2.2 sampleMtbConfig (ProcessMtbSales.ApiListing.response 200 [⟨"P1", -3⟩]) okNet
      false 0 15 ⟨some "5417196215", none, "FT", some 15, "normal", none,
        [⟨"P1", 3⟩], none⟩ (by decide)⟩

/-- Counterexample to C6: a concrete production run of the gym variant
builds its payload with no due date at all, refuting the claim that every
variant's payload carries a due date of build time plus 15 days. -/
theorem claim_C6_counterexample :
    ((ProcessSevenSales.run sampleSevenConfig [sampleFile] sampleRows okNet
      "2024-03-01" "2024-03-31" false).built).map Payload.date_due = [none] := by decide

/-- C6 (amended): Every payload built by the general variant carries due
date `now + 15` (the default offset), and every payload built by the MTB
variant carries `now + due_days` (15 at the driver's call site), in both
cases independent of the invoiced period; the gym variant's payloads carry
no due date at all. -/
theorem claim_C6_amended :
    (∀ (config : ProcessSales.Config) (files : List DriveFile) (rows : String → List CsvRow)
        (net : Payload → SendOutcome) (start_date end_date : String) (dry_run : Bool) (now : Nat),
      ∀ p ∈ (ProcessSales.run config files rows net start_date end_date dry_run now).built,
        p.date_due = some (now + 15)) ∧
    (∀ (config : ProcessMtbSales.Config) (listing : ProcessMtbSales.ApiListing)
        (net : Payload → SendOutcome) (dry_run : Bool) (now due_days : Nat),
      ∀ p ∈ (ProcessMtbSales.run config listing net dry_run now due_days).built,
        p.date_due = some (now + due_days)) ∧
    (∀ (config : ProcessSevenSales.Config) (files : List DriveFile)
        (rows : String → List CsvRow) (net : Payload → SendOutcome)
        (start_date end_date : String) (dry_run : Bool),
      ∀ p ∈ (ProcessSevenSales.run config files rows net start_date end_date dry_run).built,
        p.date_due = none) := by
  refine ⟨?_, ?_, ?_⟩
  · intro config files rows net start_date end_date dry_run now p hp
    obtain ⟨cs, _, rfl⟩ := mem_built_process_sales hp
    rfl
  · intro config listing net dry_run now due_days p hp
    rw [mem_built_mtb hp]
    cases dry_run <;> rfl
  · intro config files rows net start_date end_date dry_run p hp
    rw [mem_built_seven hp]
    exact create_invoice_payload_date_due _ _ _ _ _

/-- Witness for C6 (amended): in concrete production runs the general
payload is due at `100 + 15 = 115`, the MTB payload at `0 + 15 = 15`, and
the gym payload carries no due date. -/
theorem claim_C6_amended_witness :
    Payload.date_due ⟨some "data_5480033140", none, "FT", some 115, "normal", none,
      [⟨"X", 3⟩], none⟩ = some 115 ∧
    Payload.date_due ⟨some "5417196215", none, "FT", some 15, "normal", none,
      [⟨"P1", 3⟩], none⟩ = some 15 ∧
    Payload.date_due ⟨none, some "217465187", "FR", none, "normal", some "Seven Gym",
      [⟨"X", 3⟩], some ["85469894"]⟩ = none :=
  ⟨claim_C6_amended.1 sampleSalesConfig [sampleFile] sampleRows okNet "2024-03-01"
      "2024-03-31" false 100 ⟨some "data_5480033140", none, "FT", some 115, "normal", none,
        [⟨"X", 3⟩], none⟩ (by decide),
   claim_C6_amended.2.1 sampleMtbConfig (ProcessMtbSales.ApiListing.response 200 [⟨"P1", -3⟩])
      okNet false 0 15 ⟨some "5417196215", none, "FT", some 15, "normal", none,
        [⟨"P1", 3⟩], none⟩ (by decide),
   claim_C6_amended.2.2 sampleSevenConfig [sampleFile] sampleRows okNet "2024-03-01"
      "2024-03-31" false ⟨none, some "217465187", "FR", none, "normal", some "Seven Gym",
        [⟨"X", 3⟩], some ["85469894"]⟩ (by decide)⟩

/-- C7: A gym-variant payload built in dry-run mode never carries a
payment reference, regardless of input; built in production mode with a
configured (non-empty) payment id, its payments list carries exactly that
id. -/
theorem claim_C7 :
    (∀ (config : ProcessSevenSales.Config) (files : List DriveFile)
        (rows : String → List CsvRow) (net : Payload → SendOutcome)
        (start_date end_date : String),
      ∀ p ∈ (ProcessSevenSales.run config files rows net start_date end_date true).built,
        p.payments = none) ∧
    (∀ (config : ProcessSevenSales.Config) (files : List DriveFile)
        (rows : String → List CsvRow) (net : Payload → SendOutcome)
        (start_date end_date : String),
      config.paymentId ≠ "" →
      ∀ p ∈ (ProcessSevenSales.run config files rows net start_date end_date false).built,
        p.payments = some [config.paymentId]) := by
  refine ⟨?_, ?_⟩
  · intro config files rows net start_date end_date p hp
    rw [mem_built_seven hp]
    exact create_invoice_payload_payments_none _ _ _ _
  · intro config files rows net start_date end_date hpid p hp
    rw [mem_built_seven hp]
    exact create_invoice_payload_payments_some _ _ _ _ hpid

/-- Witness for C7: the concrete dry-run gym payload has no payments
entry; the concrete production payload carries the configured payment id
85469894. -/
theorem claim_C7_witness :
    Payload.payments ⟨none, some "217465187", "PF", none, "normal", some "Seven Gym",
      [⟨"X", 3⟩], none⟩ = none ∧
    Payload.payments ⟨none, some "217465187", "FR", none, "normal", some "Seven Gym",
      [⟨"X", 3⟩], some ["85469894"]⟩ = some ["85469894"] :=
  ⟨claim_C7.1 sampleSevenConfig [sampleFile] sampleRows okNet "2024-03-01" "2024-03-31"
      ⟨none, some "217465187", "PF", none, "normal", some "Seven Gym",
        [⟨"X", 3⟩], none⟩ (by decide),
   claim_C7.2 sampleSevenConfig [sampleFile] sampleRows okNet "2024-03-01" "2024-03-31"
      (by decide) ⟨none, some "217465187", "FR", none, "normal", some "Seven Gym",
        [⟨"X", 3⟩], some ["85469894"]⟩ (by decide)⟩

/-- Counterexample to C8: with valid credentials, a 500 reply (carrying
product data) on the product-listing call makes the MTB run return
success with nothing built or sent — not the failure the claim asserts. -/
theorem claim_C8_counterexample :
    ProcessMtbSales.run sampleMtbConfig
      (ProcessMtbSales.ApiListing.response 500 [⟨"P1", -3⟩]) okNet false 0 15 =
      ⟨true, [], []⟩ := by decide

/-- C8 (amended): A network failure or any non-200 status from the
product-listing call yields an empty product list, and the MTB run then
short-circuits to success with no document built or dispatched, rather
than failing. -/
theorem claim_C8_amended :
    ∀ (config : ProcessMtbSales.Config) (net : Payload → SendOutcome) (dry_run : Bool)
      (now due_days : Nat),
      config.mtbVendusApiKey ≠ "" → config.vendusApiKey ≠ "" →
      (∀ (code : Nat) (body : List ProcessMtbSales.Product), code ≠ 200 →
        ProcessMtbSales.run config (ProcessMtbSales.ApiListing.response code body) net
          dry_run now due_days = ⟨true, [], []⟩) ∧
      ProcessMtbSales.run config ProcessMtbSales.ApiListing.netError net dry_run now
        due_days = ⟨true, [], []⟩ := by
  intro config net dry_run now due_days hk ha
  constructor
  · intro code body hcode
    apply mtb_run_trivial hk ha
    simp [ProcessMtbSales.get_products_with_negative_qty, hcode]
  · exact mtb_run_trivial hk ha rfl

/-- Witness for C8 (amended): a 404 product listing with product data and
a network exception each turn into trivial success of the MTB run. -/
theorem claim_C8_amended_witness :
    ProcessMtbSales.run sampleMtbConfig
      (ProcessMtbSales.ApiListing.response 404 [⟨"P2", -7⟩]) okNet false 0 15 =
      ⟨true, [], []⟩ ∧
    ProcessMtbSales.run sampleMtbConfig ProcessMtbSales.ApiListing.netError okNet false 0 15 =
      ⟨true, [], []⟩ :=
  ⟨(claim_C8_amended sampleMtbConfig okNet false 0 15 (by decide) (by decide)).1 404
      [⟨"P2", -7⟩] (by decide),
   (claim_C8_amended sampleMtbConfig okNet false 0 15 (by decide) (by decide)).2⟩

/-- C9: For every input of the general variant, the aggregated output has
pairwise-distinct (client NIF, product code) pairs, and aggregation is
idempotent: re-aggregating an aggregated result (read back as plain
records) returns it unchanged. -/
theorem claim_C9 :
    ∀ records : List SalesRecord,
      ((ProcessSales.aggregate records).flatMap
        (fun p => p.2.map (fun it => (p.1, it.reference)))).Nodup ∧
      ProcessSales.aggregate (flattenAgg (ProcessSales.aggregate records)) =
        ProcessSales.aggregate records :=
  fun records => ⟨aggregate_pairs_nodup records, aggregate_idem records⟩

/-- C10: Both file selectors are total; for a file whose name is shorter
than ten characters the date key is the entire name, and the file is
selected or rejected by comparing that name against the inclusive range
(together with the variant's NIF rule) instead of raising an error. -/
theorem claim_C10 :
    ∀ (name : String), name.data.length < 10 →
      pyTake 10 name = name ∧
      (∀ (files : List DriveFile) (excluded_nifs : List String)
          (start_date end_date : String) (f : DriveFile), f.name = name →
        (f ∈ ProcessSales.filter_files_exclude_nifs files excluded_nifs start_date end_date ↔
          f ∈ files ∧ (excluded_nifs.all (fun nif => !(strContains name nif)) = true ∧
            (pyStrLe start_date name = true ∧ pyStrLe name end_date = true)))) ∧
      (∀ (files : List DriveFile) (nif : String) (start_date end_date : String)
          (f : DriveFile), f.name = name →
        (f ∈ ProcessSevenSales.filter_files files nif start_date end_date ↔
          f ∈ files ∧ (strContains name nif = true ∧
            (pyStrLe start_date name = true ∧ pyStrLe name end_date = true)))) := by
  intro name hlen
  have htake : pyTake 10 name = name := pyTake_of_short (le_of_lt hlen)
  refine ⟨htake, ?_, ?_⟩
  · intro files excluded_nifs start_date end_date f hf
    subst hf
    rw [filter_files_exclude_nifs_eq, List.mem_filter]
    unfold specExclusionSelect
    rw [htake]
    simp [Bool.and_eq_true, and_assoc]
  · intro files nif start_date end_date f hf
    subst hf
    rw [filter_files_eq, List.mem_filter]
    rw [htake]
    simp [Bool.and_eq_true, and_assoc]

/-- Witness for C10: the three-character name "abc" keeps itself as its
date key, and a singleton listing containing it is selected exactly by the
range comparison on the whole name. -/
theorem claim_C10_witness :
    pyTake 10 "abc" = "abc" ∧
    ((⟨"f9", "abc"⟩ : DriveFile) ∈ ProcessSales.filter_files_exclude_nifs
        [⟨"f9", "abc"⟩] [] "aaa" "b" ↔
      (⟨"f9", "abc"⟩ : DriveFile) ∈ [(⟨"f9", "abc"⟩ : DriveFile)] ∧
        (([] : List String).all (fun nif => !(strContains "abc" nif)) = true ∧
          (pyStrLe "aaa" "abc" = true ∧ pyStrLe "abc" "b" = true))) :=
  ⟨(claim_C10 "abc" (by decide)).1,
   (claim_C10 "abc" (by decide)).2.1 [⟨"f9", "abc"⟩] [] "aaa" "b" ⟨"f9", "abc"⟩ rfl⟩
